import Mathlib

/-!
A shallow embedding of `led_strip.c` (saawsm/led_strip).

The driver keeps a pixel buffer for a WS2812 strip and pushes it through the
RMT peripheral.  The embedding covers the brightness scaler (`scale8_video`),
the pixel-buffer writers (`set_pixel`, `led_strip_set`, `led_strip_fill`), the
teardown routine (`led_strip_free`) and the encoder callback
(`rmt_encode_led_strip`).

Conventions.
* C unsigned integers are natural numbers; a conversion to `uint16_t` or
  `uint8_t` is an explicit `% 65536` or `% 256`, and `size_t` sums are taken
  `% SIZE_MOD`.
* A pointer argument is an `Option`: `none` is `NULL`.
* The heap block behind `internal.buf` is a `List Nat`.  A store outside the
  block is undefined behaviour, which is the outer `none` of the writers.
* Calls into ESP-IDF (collaborators) are recorded in a trace of events.
-/

namespace LedStrip

/-! ## Constants and types -/

/-- The type `esp_err_t` of ESP-IDF is a C `int`. -/
abbrev esp_err_t := Int

/-- The success code of `esp_err.h`. -/
def ESP_OK : esp_err_t := 0

/-- The code `ESP_RETURN_ON_FALSE` returns for a null strip pointer. -/
def ESP_ERR_INVALID_ARG : esp_err_t := 0x102

/-- From `led_strip.c`: `#define COLOR_COMPONENTS_PER_LED (3)`. -/
def COLOR_COMPONENTS_PER_LED : Nat := 3

/-- Number of values of a `uint16_t`. -/
def UINT16_MOD : Nat := 65536

/-- Number of values of a `uint8_t`. -/
def UINT8_MOD : Nat := 256

/-- The struct `rgb_t` of `led_strip.h`: fields `r`, `g`, `b`, in this order. -/
structure rgb_t where
  r : Nat
  g : Nat
  b : Nat
  deriving DecidableEq, Repr

/-- The struct `led_strip_t` of `led_strip.h`.  `channel` and `encoder` are the
RMT handles (plain numbers here), `buf` is the block `internal.buf` points to. -/
structure led_strip_t where
  gpio : Int
  length : Nat
  brightness : Nat
  channel : Nat
  encoder : Nat
  buf : List Nat
  deriving DecidableEq, Repr

/-- All three channels of a colour are `uint8_t` values. -/
def rgb_t.isU8 (c : rgb_t) : Prop := c.r < 256 ∧ c.g < 256 ∧ c.b < 256

/-- The data-model invariant of the pixel buffer: `calloc(length * 3, 1)`. -/
abbrev led_strip_t.bufOk (s : led_strip_t) : Prop :=
  s.buf.length = s.length * COLOR_COMPONENTS_PER_LED

/-! ## Brightness scaler -/

/-- `scale8_video` (led_strip.c:105).  The arithmetic is done in `int`, the
result is converted to the `uint8_t` return type. -/
def scale8_video (i scale : Nat) : Nat :=
  ((i * scale) / 256 + (if i ≠ 0 ∧ scale ≠ 0 then 1 else 0)) % UINT8_MOD

/-! ## Pixel buffer -/

/-- One byte store `buf[off] = v` into the heap block; `none` when `off` is
outside the block. -/
def store (buf : List Nat) (off v : Nat) : Option (List Nat) :=
  if off < buf.length then some (buf.set off v) else none

/-- `set_pixel` (led_strip.c:109).  `pixel_index` is a `uint16_t`; the three
subscripts `pixel_index + k` are computed in `int`. -/
def set_pixel (s : led_strip_t) (index : Nat) (color : rgb_t) : Option led_strip_t :=
  let pixel_index := (index * COLOR_COMPONENTS_PER_LED) % UINT16_MOD
  (store s.buf (pixel_index + 0) (scale8_video color.r s.brightness)).bind fun b0 =>
  (store b0 (pixel_index + 1) (scale8_video color.g s.brightness)).bind fun b1 =>
  (store b1 (pixel_index + 2) (scale8_video color.b s.brightness)).bind fun b2 =>
  some { s with buf := b2 }

/-- The clamp shared by `led_strip_set` and `led_strip_fill`:
`if (index >= length) index = length - 1;` with the assignment converting the
`int` value `length - 1` to `uint16_t`. -/
def clamp_index (s : led_strip_t) (index : Nat) : Nat :=
  if index ≥ s.length then (s.length + (UINT16_MOD - 1)) % UINT16_MOD else index

/-- `led_strip_set` (led_strip.c:116).  Returns the error code and the strip
after the call. -/
def led_strip_set (led_strip : Option led_strip_t) (index : Nat) (color : rgb_t) :
    Option (esp_err_t × Option led_strip_t) :=
  match led_strip with
  | none => some (ESP_ERR_INVALID_ARG, none)
  | some s =>
    let index := clamp_index s index
    (set_pixel s index color).bind fun s1 => some (ESP_OK, some s1)

/-- The loop `for (uint16_t i = index; i < end; i++) set_pixel(led_strip, index, color);`
of `led_strip_fill`, with `k = end - i` iterations left.  The body is passed
`index`, as in the source; `i` only counts. -/
def fill_loop (index : Nat) (color : rgb_t) : Nat → Nat → led_strip_t → Option led_strip_t
  | 0, _, s => some s
  | k + 1, i, s => (set_pixel s index color).bind (fill_loop index color k (i + 1))

/-- The end bound of `led_strip_fill`: `uint16_t end = index + count;
if (end > length) end = length;` for the clamped `index`. -/
def fill_end (s : led_strip_t) (index count : Nat) : Nat :=
  let end0 := (index + count) % UINT16_MOD
  if end0 > s.length then s.length else end0

/-- `led_strip_fill` (led_strip.c:126). -/
def led_strip_fill (led_strip : Option led_strip_t) (index count : Nat) (color : rgb_t) :
    Option (esp_err_t × Option led_strip_t) :=
  match led_strip with
  | none => some (ESP_ERR_INVALID_ARG, none)
  | some s =>
    let index := clamp_index s index
    let end_ := fill_end s index count
    (fill_loop index color (end_ - index) index s).bind fun s1 => some (ESP_OK, some s1)

/-- The range fill of the API documentation ("the number of LEDs to set, from
index"), written from the words of the specification: with
`i = min index (length - 1)` and `end = min (i + count) length`, call
`led_strip_set` on each of `i .. end - 1` in turn. -/
def led_strip_fill_documented (s : led_strip_t) (index count : Nat) (color : rgb_t) :
    Option (esp_err_t × Option led_strip_t) :=
  let i := min index (s.length - 1)
  let end_ := min (i + count) s.length
  (List.range' i (end_ - i)).foldl
    (fun acc j => acc.bind fun r => led_strip_set r.2 j color) (some (ESP_OK, some s))

/-! ## Teardown -/

/-- The collaborator calls `led_strip_free` can make, with their argument. -/
inductive TeardownCall where
  | rmt_disable (channel : Nat)
  | rmt_del_encoder (encoder : Nat)
  | rmt_del_channel (channel : Nat)
  | free (buf : List Nat)
  deriving DecidableEq, Repr

/-- `led_strip_free` (led_strip.c:62).  The three RMT collaborators are
functions from the handle to the code they return.  The result is the returned
code and the calls made, in order. -/
def led_strip_free (rmt_disable rmt_del_encoder rmt_del_channel : Nat → esp_err_t)
    (led_strip : Option led_strip_t) : esp_err_t × List TeardownCall :=
  match led_strip with
  | none => (ESP_ERR_INVALID_ARG, [])
  | some s =>
    let err := rmt_disable s.channel
    if err ≠ ESP_OK then
      (err, [.rmt_disable s.channel, .free s.buf])
    else
      let err := rmt_del_encoder s.encoder
      if err ≠ ESP_OK then
        (err, [.rmt_disable s.channel, .rmt_del_encoder s.encoder, .free s.buf])
      else
        let err := rmt_del_channel s.channel
        (err, [.rmt_disable s.channel, .rmt_del_encoder s.encoder,
               .rmt_del_channel s.channel, .free s.buf])

/-! ## Protocol encoder -/

/-- Modelled from the spec: the status of an encode call is a set of the two
flags "complete" and "buffer full"; the bit values are those of the enum
`rmt_encode_state_t` of ESP-IDF, whose header is not part of the repository. -/
def RMT_ENCODING_COMPLETE : Nat := 1

/-- Modelled from the spec: the "buffer full" flag, see `RMT_ENCODING_COMPLETE`. -/
def RMT_ENCODING_MEM_FULL : Nat := 2

/-- Number of values of a `size_t` on the 32-bit targets the RMT driver runs on. -/
def SIZE_MOD : Nat := 4294967296

/-- The sub-encoders `rmt_encode_led_strip` can invoke. -/
inductive EncoderCall where
  | bytes_encoder
  | copy_encoder
  deriving DecidableEq, Repr

/-- What one call of `rmt_encode_led_strip` leaves behind: `led_encoder->state`,
the state of the collaborators, the returned symbol count, `*ret_state`, and
the sub-encoders invoked, in order. -/
structure EncodeOut (σ : Type) where
  state : Int
  env : σ
  encoded_symbols : Nat
  ret_state : Nat
  calls : List EncoderCall

/-- The body of `case 1:` of `rmt_encode_led_strip` ("send reset code"), entered
with the current `led_encoder->state`, `encoded_symbols` and calls so far.
`state` is still `0` whenever control reaches this label. -/
def encode_reset_code {σ : Type} (copy_encode : σ → σ × Nat × Nat)
    (led_state : Int) (env : σ) (encoded_symbols : Nat) (calls : List EncoderCall) :
    EncodeOut σ :=
  let r := copy_encode env
  let session_state := r.2.2
  let encoded_symbols := (encoded_symbols + r.2.1) % SIZE_MOD
  let led_state := if session_state &&& RMT_ENCODING_COMPLETE ≠ 0 then 0 else led_state
  let state := if session_state &&& RMT_ENCODING_COMPLETE ≠ 0 then 0 ||| RMT_ENCODING_COMPLETE else 0
  let state := if session_state &&& RMT_ENCODING_MEM_FULL ≠ 0 then state ||| RMT_ENCODING_MEM_FULL else state
  { state := led_state, env := r.1, encoded_symbols := encoded_symbols, ret_state := state,
    calls := calls ++ [.copy_encoder] }

/-- `rmt_encode_led_strip` (led_strip.c:142).  The sub-encoders are functions on
the collaborators' state `σ` returning the new state, the symbols written and
the session status; `bytes_encode` also receives `primary_data` and
`data_size`. -/
def rmt_encode_led_strip {σ : Type} (bytes_encode : σ → List Nat → Nat → σ × Nat × Nat)
    (copy_encode : σ → σ × Nat × Nat)
    (led_state : Int) (env : σ) (primary_data : List Nat) (data_size : Nat) : EncodeOut σ :=
  if led_state = 0 then
    let r := bytes_encode env primary_data data_size
    let session_state := r.2.2
    let encoded_symbols := (0 + r.2.1) % SIZE_MOD
    let led_state := if session_state &&& RMT_ENCODING_COMPLETE ≠ 0 then 1 else led_state
    if session_state &&& RMT_ENCODING_MEM_FULL ≠ 0 then
      { state := led_state, env := r.1, encoded_symbols := encoded_symbols,
        ret_state := 0 ||| RMT_ENCODING_MEM_FULL, calls := [.bytes_encoder] }
    else
      encode_reset_code copy_encode led_state r.1 encoded_symbols [.bytes_encoder]
  else if led_state = 1 then
    encode_reset_code copy_encode led_state env 0 []
  else
    { state := led_state, env := env, encoded_symbols := 0, ret_state := 0, calls := [] }

/-! ### The sub-encoders and the host, for a whole flush -/

/-- State of the collaborators during a flush: the free symbol slots of the
host window of the current call, and the resume positions of the two
sub-encoders. -/
structure rmt_env where
  mem_free : Nat
  last_bit : Nat
  last_symbol : Nat
  deriving DecidableEq, Repr

/-- Modelled from the spec: the bit-pattern sub-encoder (ESP-IDF, not in the
repository).  It emits one symbol per data bit, resumes where it stopped,
reports "buffer full" when the window is exhausted and "complete" when all
bytes are done. -/
def bytes_encode (env : rmt_env) (_primary_data : List Nat) (data_size : Nat) :
    rmt_env × Nat × Nat :=
  let mem_want := data_size * 8 - env.last_bit
  let mem_have := env.mem_free
  let truncated := decide (mem_have < mem_want)
  let encode_len := if truncated then mem_have else mem_want
  let st := if truncated then 0 else RMT_ENCODING_COMPLETE
  let st := if mem_have > mem_want then st else st ||| RMT_ENCODING_MEM_FULL
  ({ env with mem_free := mem_have - encode_len,
              last_bit := if truncated then env.last_bit + encode_len else 0 },
   encode_len, st)

/-- Modelled from the spec: the fixed-pattern sub-encoder (ESP-IDF, not in the
repository).  It emits the single reset symbol when there is room, with the
same status rules as `bytes_encode`. -/
def copy_encode (env : rmt_env) : rmt_env × Nat × Nat :=
  let mem_want := 1 - env.last_symbol
  let mem_have := env.mem_free
  let truncated := decide (mem_have < mem_want)
  let encode_len := if truncated then mem_have else mem_want
  let st := if truncated then 0 else RMT_ENCODING_COMPLETE
  let st := if mem_have > mem_want then st else st ||| RMT_ENCODING_MEM_FULL
  ({ env with mem_free := mem_have - encode_len,
              last_symbol := if truncated then env.last_symbol + encode_len else 0 },
   encode_len, st)

/-- Result of a flush: symbols summed over the calls, number of calls, and the
session left behind. -/
structure FlushRun where
  symbols : Nat
  ncalls : Nat
  state : Int
  env : rmt_env
  deriving DecidableEq, Repr

/-- Modelled from the spec: the host invokes `rmt_encode_led_strip` once per
window of the list, each time with that many free symbol slots, and stops at
the first call that reports "complete".  `none` when the windows run out
before that. -/
def flush_run (primary_data : List Nat) (data_size : Nat) :
    List Nat → Int → rmt_env → Option FlushRun
  | [], _, _ => none
  | w :: ws, led_state, env =>
    let out := rmt_encode_led_strip bytes_encode copy_encode led_state
      { env with mem_free := w } primary_data data_size
    if out.ret_state &&& RMT_ENCODING_COMPLETE ≠ 0 then
      some { symbols := out.encoded_symbols, ncalls := 1, state := out.state, env := out.env }
    else
      (flush_run primary_data data_size ws out.state out.env).map fun r =>
        { r with symbols := out.encoded_symbols + r.symbols, ncalls := r.ncalls + 1 }

/-- The session as `rmt_new_led_strip_encoder` or a reset leaves it. -/
def rmt_env.fresh : rmt_env := { mem_free := 0, last_bit := 0, last_symbol := 0 }

/-! ## Definitions used by the statements -/

/-- The strip `set_pixel` produces when all three stores are inside the block. -/
def set_pixel_result (s : led_strip_t) (index : Nat) (color : rgb_t) : led_strip_t :=
  let p := (index * COLOR_COMPONENTS_PER_LED) % UINT16_MOD
  { s with buf := ((s.buf.set p (scale8_video color.r s.brightness)).set (p + 1)
      (scale8_video color.g s.brightness)).set (p + 2) (scale8_video color.b s.brightness) }

/-- What links the session to the number `e` of symbols emitted so far in the
flush of `n` bytes: in Data the bytes encoder stands at bit `e`; in Reset all
`8 * n` data symbols are out. -/
def flush_inv (n e : Nat) (st : Int) (env : rmt_env) : Prop :=
  env.last_symbol = 0 ∧
    ((st = 0 ∧ env.last_bit = e ∧ e ≤ n * 8) ∨ (st = 1 ∧ env.last_bit = 0 ∧ e = n * 8))

/-! ## Brightness scaler: properties -/

theorem scale8_video_lt (c b : Nat) (hc : c < 256) (hb : b < 256) :
    (c * b) / 256 + (if c ≠ 0 ∧ b ≠ 0 then 1 else 0) < 256 := by
  have h : c * b ≤ 255 * 255 := Nat.mul_le_mul (by omega) (by omega)
  have h2 : (c * b) / 256 ≤ 254 := by omega
  split <;> omega

theorem scale8_video_full (c : Nat) (hc : c < 256) : scale8_video c 255 = c := by
  unfold scale8_video UINT8_MOD
  by_cases h : c = 0
  · subst h; simp
  · have : (c ≠ 0 ∧ (255 : Nat) ≠ 0) := ⟨h, by decide⟩
    have hd : c * 255 / 256 = c - 1 := by
      apply Nat.div_eq_of_lt_le <;> omega
    rw [if_pos this, hd]
    omega

/-- C4: for 8-bit inputs `scale8_video c b` is zero exactly when `c` or `b` is
zero; it is zero for a zero channel and for zero brightness, at least one when
both are non-zero, and it is an 8-bit value. -/
theorem scale8_video_zero_iff (c b : Nat) (hc : c < 256) (hb : b < 256) :
    (scale8_video c b = 0 ↔ (c = 0 ∨ b = 0)) ∧
    scale8_video 0 b = 0 ∧ scale8_video c 0 = 0 ∧
    (c ≠ 0 → b ≠ 0 → 1 ≤ scale8_video c b) ∧
    scale8_video c b < 256 := by
  have hlt := scale8_video_lt c b hc hb
  have hval : scale8_video c b = (c * b) / 256 + (if c ≠ 0 ∧ b ≠ 0 then 1 else 0) := by
    unfold scale8_video UINT8_MOD
    exact Nat.mod_eq_of_lt hlt
  have hpos : c ≠ 0 → b ≠ 0 → 1 ≤ scale8_video c b := by
    intro h1 h2
    rw [hval, if_pos ⟨h1, h2⟩]
    omega
  have hz1 : scale8_video 0 b = 0 := by simp [scale8_video]
  have hz2 : scale8_video c 0 = 0 := by simp [scale8_video]
  refine ⟨⟨?_, ?_⟩, hz1, hz2, hpos, by rw [hval]; exact hlt⟩
  · intro h0
    by_contra hne
    push_neg at hne
    have := hpos hne.1 hne.2
    omega
  · rintro (h | h)
    · subst h; exact hz1
    · subst h; exact hz2

theorem scale8_video_zero_iff_witness :
    (scale8_video 7 3 = 0 ↔ ((7 : Nat) = 0 ∨ (3 : Nat) = 0)) ∧
    scale8_video 0 3 = 0 ∧ scale8_video 7 0 = 0 ∧
    ((7 : Nat) ≠ 0 → (3 : Nat) ≠ 0 → 1 ≤ scale8_video 7 3) ∧
    scale8_video 7 3 < 256 :=
  scale8_video_zero_iff 7 3 (by decide) (by decide)

/-! ## Pixel buffer: helper lemmas -/

theorem clamp_index_of_ge (s : led_strip_t) (index : Nat)
    (h1 : 1 ≤ s.length) (h16 : s.length < 65536) (hge : s.length ≤ index) :
    clamp_index s index = s.length - 1 := by
  unfold clamp_index UINT16_MOD
  rw [if_pos hge]
  omega

theorem clamp_index_eq_min (s : led_strip_t) (index : Nat)
    (h1 : 1 ≤ s.length) (h16 : s.length < 65536) :
    clamp_index s index = min index (s.length - 1) := by
  by_cases hge : s.length ≤ index
  · rw [clamp_index_of_ge s index h1 h16 hge]; omega
  · unfold clamp_index
    rw [if_neg (by omega)]
    omega

theorem clamp_index_lt (s : led_strip_t) (index : Nat)
    (h1 : 1 ≤ s.length) (h16 : s.length < 65536) :
    clamp_index s index < s.length := by
  rw [clamp_index_eq_min s index h1 h16]; omega

/-- The three subscripts of `set_pixel` stay inside a block of `3 * length`
bytes for every LED index below `length`, also when `index * 3` wraps. -/
theorem pixel_index_in_block (len index : Nat) (h : index < len) :
    (index * COLOR_COMPONENTS_PER_LED) % UINT16_MOD + 2 < len * COLOR_COMPONENTS_PER_LED := by
  unfold COLOR_COMPONENTS_PER_LED UINT16_MOD
  have := Nat.mod_le (index * 3) 65536
  omega

theorem store_some (buf : List Nat) (off v : Nat) (h : off < buf.length) :
    store buf off v = some (buf.set off v) := by
  unfold store; rw [if_pos h]

theorem set_pixel_some (s : led_strip_t) (index : Nat) (color : rgb_t)
    (h : (index * COLOR_COMPONENTS_PER_LED) % UINT16_MOD + 2 < s.buf.length) :
    set_pixel s index color = some (set_pixel_result s index color) := by
  simp only [set_pixel, set_pixel_result, Nat.add_zero]
  rw [store_some _ _ _ (by omega)]
  simp only [Option.some_bind]
  rw [store_some _ _ _ (by simp; omega)]
  simp only [Option.some_bind]
  rw [store_some _ _ _ (by simp; omega)]
  simp only [Option.some_bind]

theorem set_pixel_result_bufOk (s : led_strip_t) (index : Nat) (color : rgb_t)
    (h : s.bufOk) : (set_pixel_result s index color).bufOk := by
  unfold led_strip_t.bufOk set_pixel_result at *
  simpa using h

theorem fill_loop_some (index : Nat) (color : rgb_t) (k : Nat) :
    ∀ (i : Nat) (s : led_strip_t), s.bufOk →
      (index * COLOR_COMPONENTS_PER_LED) % UINT16_MOD + 2 < s.buf.length →
      ∃ s1, fill_loop index color k i s = some s1 ∧ s1.bufOk ∧ s1.length = s.length ∧
        s1.brightness = s.brightness := by
  induction k with
  | zero => intro i s hb _; exact ⟨s, rfl, hb, rfl, rfl⟩
  | succ k ih =>
    intro i s hb hoff
    have hb1 := set_pixel_result_bufOk s index color hb
    have hlen : (set_pixel_result s index color).buf.length = s.buf.length := by
      simp [set_pixel_result]
    obtain ⟨s1, h1, h2, h3, h4⟩ := ih (i + 1) (set_pixel_result s index color) hb1 (by omega)
    refine ⟨s1, ?_, h2, ?_, ?_⟩
    · simp only [fill_loop, set_pixel_some s index color hoff, Option.some_bind]
      exact h1
    · rw [h3]; rfl
    · rw [h4]; rfl

/-! ## Pixel buffer: clamping and memory safety -/

/-- C3: on a strip of length at least one, `led_strip_set` with an index at or
beyond `length` leaves exactly the result of `led_strip_set` with index
`length - 1`; with the buffer invariant the call returns `ESP_OK` and a strip
of the same length and brightness. -/
theorem led_strip_set_clamps (s : led_strip_t) (index : Nat) (color : rgb_t)
    (h1 : 1 ≤ s.length) (h16 : s.length < 65536) (hge : s.length ≤ index) :
    led_strip_set (some s) index color = led_strip_set (some s) (s.length - 1) color ∧
    (s.bufOk → ∃ s1, led_strip_set (some s) index color = some (ESP_OK, some s1) ∧
      s1 = set_pixel_result s (s.length - 1) color ∧
      s1.length = s.length ∧ s1.brightness = s.brightness) := by
  have hc1 := clamp_index_of_ge s index h1 h16 hge
  have hc2 : clamp_index s (s.length - 1) = s.length - 1 := by
    rw [clamp_index_eq_min s _ h1 h16]; omega
  refine ⟨by simp only [led_strip_set, hc1, hc2], ?_⟩
  intro hb
  have hoff := pixel_index_in_block s.length (s.length - 1) (by omega)
  rw [← hb] at hoff
  refine ⟨set_pixel_result s (s.length - 1) color, ?_, rfl, rfl, rfl⟩
  simp only [led_strip_set, hc1, set_pixel_some s _ color hoff, Option.some_bind]

theorem led_strip_set_clamps_witness :
    led_strip_set (some ⟨2, 2, 255, 0, 0, [0, 0, 0, 0, 0, 0]⟩) 9 ⟨1, 2, 3⟩ =
      led_strip_set (some ⟨2, 2, 255, 0, 0, [0, 0, 0, 0, 0, 0]⟩) (2 - 1) ⟨1, 2, 3⟩ ∧
    ∃ s1, led_strip_set (some ⟨2, 2, 255, 0, 0, [0, 0, 0, 0, 0, 0]⟩) 9 ⟨1, 2, 3⟩ =
        some (ESP_OK, some s1) ∧
      s1 = set_pixel_result ⟨2, 2, 255, 0, 0, [0, 0, 0, 0, 0, 0]⟩ (2 - 1) ⟨1, 2, 3⟩ ∧
      s1.length = 2 ∧ s1.brightness = 255 :=
  have h := led_strip_set_clamps ⟨2, 2, 255, 0, 0, [0, 0, 0, 0, 0, 0]⟩ 9 ⟨1, 2, 3⟩
    (by decide) (by decide) (by decide)
  ⟨h.1, h.2 (by decide)⟩

/-- C5: on a strip of length at least one whose buffer has `3 * length` bytes,
for every index, count and colour the three subscripts `set_pixel` uses are
below `3 * length`, and `led_strip_set` and `led_strip_fill` complete with
`ESP_OK` without a store outside the block, leaving a buffer of the same size;
this includes the inputs on which `index * 3` or `index + count` wraps. -/
theorem writes_stay_in_block (s : led_strip_t) (index count : Nat) (color : rgb_t)
    (h1 : 1 ≤ s.length) (h16 : s.length < 65536) (hb : s.bufOk) :
    (clamp_index s index * COLOR_COMPONENTS_PER_LED) % UINT16_MOD + 2
      < COLOR_COMPONENTS_PER_LED * s.length ∧
    (∃ s1, led_strip_set (some s) index color = some (ESP_OK, some s1) ∧
      s1.buf.length = COLOR_COMPONENTS_PER_LED * s.length) ∧
    (∃ s1, led_strip_fill (some s) index count color = some (ESP_OK, some s1) ∧
      s1.buf.length = COLOR_COMPONENTS_PER_LED * s.length) := by
  have hoff := pixel_index_in_block s.length (clamp_index s index) (clamp_index_lt s index h1 h16)
  have hoff2 := hoff
  rw [← hb] at hoff2
  have hbl : s.buf.length = COLOR_COMPONENTS_PER_LED * s.length := by
    rw [hb, Nat.mul_comm]
  refine ⟨by rw [Nat.mul_comm COLOR_COMPONENTS_PER_LED]; exact hoff, ?_, ?_⟩
  · refine ⟨set_pixel_result s (clamp_index s index) color, ?_, ?_⟩
    · simp only [led_strip_set, set_pixel_some s _ color hoff2, Option.some_bind]
    · rw [← hbl]; simp [set_pixel_result]
  · obtain ⟨s1, e1, b1, l1, _⟩ := fill_loop_some (clamp_index s index) color
      (fill_end s (clamp_index s index) count - clamp_index s index) (clamp_index s index) s hb hoff2
    refine ⟨s1, ?_, ?_⟩
    · simp only [led_strip_fill, e1, Option.some_bind]
    · rw [b1, l1, Nat.mul_comm]

theorem writes_stay_in_block_witness :
    (clamp_index ⟨2, 2, 255, 0, 0, [0, 0, 0, 0, 0, 0]⟩ 40000 * COLOR_COMPONENTS_PER_LED)
        % UINT16_MOD + 2 < COLOR_COMPONENTS_PER_LED * 2 ∧
    (∃ s1, led_strip_set (some ⟨2, 2, 255, 0, 0, [0, 0, 0, 0, 0, 0]⟩) 40000 ⟨1, 2, 3⟩
        = some (ESP_OK, some s1) ∧ s1.buf.length = COLOR_COMPONENTS_PER_LED * 2) ∧
    (∃ s1, led_strip_fill (some ⟨2, 2, 255, 0, 0, [0, 0, 0, 0, 0, 0]⟩) 40000 65535 ⟨1, 2, 3⟩
        = some (ESP_OK, some s1) ∧ s1.buf.length = COLOR_COMPONENTS_PER_LED * 2) :=
  writes_stay_in_block ⟨2, 2, 255, 0, 0, [0, 0, 0, 0, 0, 0]⟩ 40000 65535 ⟨1, 2, 3⟩
    (by decide) (by decide) (by decide)

/-! ## Pixel buffer: what `set_pixel` stores, and where -/

/-- With all three stores inside the block, `set_pixel` puts the scaled red,
green and blue channels at `pixel_index`, `pixel_index + 1`, `pixel_index + 2`
and leaves every other byte as it was. -/
theorem set_pixel_result_bytes (s : led_strip_t) (index : Nat) (color : rgb_t)
    (h : (index * COLOR_COMPONENTS_PER_LED) % UINT16_MOD + 2 < s.buf.length) :
    (set_pixel_result s index color).buf[(index * COLOR_COMPONENTS_PER_LED) % UINT16_MOD]?
      = some (scale8_video color.r s.brightness) ∧
    (set_pixel_result s index color).buf[(index * COLOR_COMPONENTS_PER_LED) % UINT16_MOD + 1]?
      = some (scale8_video color.g s.brightness) ∧
    (set_pixel_result s index color).buf[(index * COLOR_COMPONENTS_PER_LED) % UINT16_MOD + 2]?
      = some (scale8_video color.b s.brightness) ∧
    ∀ j, j ≠ (index * COLOR_COMPONENTS_PER_LED) % UINT16_MOD →
      j ≠ (index * COLOR_COMPONENTS_PER_LED) % UINT16_MOD + 1 →
      j ≠ (index * COLOR_COMPONENTS_PER_LED) % UINT16_MOD + 2 →
      (set_pixel_result s index color).buf[j]? = s.buf[j]? := by
  simp only [set_pixel_result]
  generalize (index * COLOR_COMPONENTS_PER_LED) % UINT16_MOD = p at h ⊢
  refine ⟨?_, ?_, ?_, ?_⟩
  · rw [List.getElem?_set_ne (by omega), List.getElem?_set_ne (by omega),
      List.getElem?_set_eq_of_lt _ (by omega)]
  · rw [List.getElem?_set_ne (by omega), List.getElem?_set_eq_of_lt _ (by simp; omega)]
  · rw [List.getElem?_set_eq_of_lt _ (by simp; omega)]
  · intro j h0 h1 h2
    rw [List.getElem?_set_ne (by omega), List.getElem?_set_ne (by omega),
      List.getElem?_set_ne (by omega)]

/-- Storing the same pixel twice is the same as storing it once. -/
theorem set_pixel_result_idem (s : led_strip_t) (index : Nat) (color : rgb_t) :
    set_pixel_result (set_pixel_result s index color) index color
      = set_pixel_result s index color := by
  simp only [set_pixel_result]
  congr 1
  generalize (index * COLOR_COMPONENTS_PER_LED) % UINT16_MOD = p
  apply List.ext_getElem?
  intro n
  simp only [List.getElem?_set, List.length_set]
  split_ifs <;> rfl

/-! ## Pixel buffer: byte order, range fill, wrap-around -/

/-- At full brightness `led_strip_set` stores the colour unscaled, in the order
red, green, blue, at the offsets `pixel_index .. pixel_index + 2`. -/
theorem led_strip_set_stores_rgb (s : led_strip_t) (i : Nat) (color : rgb_t)
    (h1 : 1 ≤ s.length) (h16 : s.length < 65536) (hb : s.bufOk) (hi : i < s.length)
    (hbr : s.brightness = 255) (hc : color.isU8) :
    ∃ s1, led_strip_set (some s) i color = some (ESP_OK, some s1) ∧
      s1.buf[(i * 3) % 65536]? = some color.r ∧
      s1.buf[(i * 3) % 65536 + 1]? = some color.g ∧
      s1.buf[(i * 3) % 65536 + 2]? = some color.b := by
  have hci : clamp_index s i = i := by
    rw [clamp_index_eq_min s i h1 h16]; omega
  have hoff := pixel_index_in_block s.length i hi
  rw [← hb] at hoff
  obtain ⟨b0, b1, b2, _⟩ := set_pixel_result_bytes s i color hoff
  rw [hbr] at b0 b1 b2
  rw [scale8_video_full _ hc.1] at b0
  rw [scale8_video_full _ hc.2.1] at b1
  rw [scale8_video_full _ hc.2.2] at b2
  refine ⟨set_pixel_result s i color, ?_, b0, b1, b2⟩
  simp only [led_strip_set, hci, set_pixel_some s i color hoff, Option.some_bind]

/-- C1, evaluated: on a one-LED strip at brightness 255, setting LED 0 to
`{r = 1, g = 2, b = 3}` leaves the bytes `1, 2, 3` (red, green, blue) at
offsets 0, 1, 2, not `2, 1, 3` (green, red, blue). -/
theorem led_strip_set_byte_order :
    led_strip_set (some ⟨2, 1, 255, 0, 0, [0, 0, 0]⟩) 0 ⟨1, 2, 3⟩
      = some (ESP_OK, some ⟨2, 1, 255, 0, 0, [1, 2, 3]⟩) ∧
    led_strip_set (some ⟨2, 1, 255, 0, 0, [0, 0, 0]⟩) 0 ⟨1, 2, 3⟩
      ≠ some (ESP_OK, some ⟨2, 1, 255, 0, 0, [2, 1, 3]⟩) := by
  decide

/-- C2, evaluated: on a three-LED strip at brightness 255, `led_strip_fill` from
index 0 with count 3 writes LED 0 only, while the documented range fill writes
all three LEDs. -/
theorem led_strip_fill_single_pixel :
    led_strip_fill (some ⟨2, 3, 255, 0, 0, [0, 0, 0, 0, 0, 0, 0, 0, 0]⟩) 0 3 ⟨1, 2, 3⟩
      = some (ESP_OK, some ⟨2, 3, 255, 0, 0, [1, 2, 3, 0, 0, 0, 0, 0, 0]⟩) ∧
    led_strip_fill_documented ⟨2, 3, 255, 0, 0, [0, 0, 0, 0, 0, 0, 0, 0, 0]⟩ 0 3 ⟨1, 2, 3⟩
      = some (ESP_OK, some ⟨2, 3, 255, 0, 0, [1, 2, 3, 1, 2, 3, 1, 2, 3]⟩) := by
  decide

/-- Without wrap-around of `index + count` the loop of `led_strip_fill` runs at
least once for a count of at least one, and the call leaves what
`led_strip_set` at the same index leaves. -/
theorem led_strip_fill_eq_set_of_no_wrap (s : led_strip_t) (index count : Nat) (color : rgb_t)
    (h1 : 1 ≤ s.length) (h16 : s.length < 65536) (hb : s.bufOk) (hc : 1 ≤ count)
    (hnw : clamp_index s index + count < 65536) :
    fill_end s (clamp_index s index) count = min (clamp_index s index + count) s.length ∧
    clamp_index s index < fill_end s (clamp_index s index) count ∧
    led_strip_fill (some s) index count color = led_strip_set (some s) index color := by
  have hlt := clamp_index_lt s index h1 h16
  have hend : fill_end s (clamp_index s index) count
      = min (clamp_index s index + count) s.length := by
    simp only [fill_end, UINT16_MOD]
    rw [Nat.mod_eq_of_lt hnw]
    split <;> omega
  have hoff := pixel_index_in_block s.length (clamp_index s index) hlt
  rw [← hb] at hoff
  refine ⟨hend, by omega, ?_⟩
  obtain ⟨k, hk⟩ : ∃ k, fill_end s (clamp_index s index) count - clamp_index s index = k + 1 :=
    ⟨fill_end s (clamp_index s index) count - clamp_index s index - 1, by omega⟩
  have hloop : ∀ (k i : Nat), fill_loop (clamp_index s index) color k i
      (set_pixel_result s (clamp_index s index) color)
        = some (set_pixel_result s (clamp_index s index) color) := by
    intro k
    induction k with
    | zero => intro i; rfl
    | succ k ih =>
      intro i
      have hoff1 : (clamp_index s index * COLOR_COMPONENTS_PER_LED) % UINT16_MOD + 2
          < (set_pixel_result s (clamp_index s index) color).buf.length := by
        simpa [set_pixel_result] using hoff
      simp only [fill_loop, set_pixel_some _ _ color hoff1, Option.some_bind,
        set_pixel_result_idem]
      exact ih (i + 1)
  simp only [led_strip_fill, led_strip_set, hk, fill_loop, set_pixel_some s _ color hoff,
    Option.some_bind, hloop]

/-- C9, evaluated: on a two-LED strip, `led_strip_fill` at index 1 with count
65535 computes the end bound 0 (the 16-bit sum wraps), runs the loop zero times
and leaves the buffer untouched, while `led_strip_set` at index 1 writes LED 1;
`min (1 + 65535) 2` is 2. -/
theorem led_strip_fill_end_wraps :
    fill_end ⟨2, 2, 255, 0, 0, [0, 0, 0, 0, 0, 0]⟩ 1 65535 = 0 ∧
    led_strip_fill (some ⟨2, 2, 255, 0, 0, [0, 0, 0, 0, 0, 0]⟩) 1 65535 ⟨1, 2, 3⟩
      = some (ESP_OK, some ⟨2, 2, 255, 0, 0, [0, 0, 0, 0, 0, 0]⟩) ∧
    led_strip_set (some ⟨2, 2, 255, 0, 0, [0, 0, 0, 0, 0, 0]⟩) 1 ⟨1, 2, 3⟩
      = some (ESP_OK, some ⟨2, 2, 255, 0, 0, [0, 0, 0, 1, 2, 3]⟩) := by
  decide

/-- The frame of `led_strip_set` relative to the offset the code uses: the call
writes at `pixel_index = (3 * i) % 65536` and the next two bytes, with
`i = min index (length - 1)`, and changes no other byte, nor the length or the
brightness. -/
theorem led_strip_set_frame (s : led_strip_t) (index : Nat) (color : rgb_t)
    (h1 : 1 ≤ s.length) (h16 : s.length < 65536) (hb : s.bufOk) :
    ∃ s1, led_strip_set (some s) index color = some (ESP_OK, some s1) ∧
      s1.length = s.length ∧ s1.brightness = s.brightness ∧
      s1.buf.length = s.buf.length ∧
      ∀ j, j ≠ (min index (s.length - 1) * 3) % 65536 →
        j ≠ (min index (s.length - 1) * 3) % 65536 + 1 →
        j ≠ (min index (s.length - 1) * 3) % 65536 + 2 → s1.buf[j]? = s.buf[j]? := by
  have hlt := clamp_index_lt s index h1 h16
  have hoff := pixel_index_in_block s.length (clamp_index s index) hlt
  rw [← hb] at hoff
  obtain ⟨_, _, _, hfr⟩ := set_pixel_result_bytes s (clamp_index s index) color hoff
  have hmin := clamp_index_eq_min s index h1 h16
  refine ⟨set_pixel_result s (clamp_index s index) color, ?_, rfl, rfl, ?_, ?_⟩
  · simp only [led_strip_set, set_pixel_some s _ color hoff, Option.some_bind]
  · simp [set_pixel_result]
  · intro j a b c
    exact hfr j (by rw [hmin]; exact a) (by rw [hmin]; exact b) (by rw [hmin]; exact c)

/-- C10, evaluated: on a strip of 21847 LEDs (a zeroed buffer of 65541 bytes) at
brightness 255, `led_strip_set` at index 21846 leaves the bytes at offsets
`3 * 21846 = 65538 .. 65540` at zero and stores the colour at offsets 2, 3, 4,
which belong to LEDs 0 and 1. -/
theorem led_strip_set_offset_wraps :
    ∃ s1, led_strip_set (some ⟨2, 21847, 255, 0, 0, List.replicate 65541 0⟩) 21846 ⟨1, 2, 3⟩
        = some (ESP_OK, some s1) ∧
      s1.buf[65538]? = some 0 ∧ s1.buf[65539]? = some 0 ∧ s1.buf[65540]? = some 0 ∧
      s1.buf[2]? = some 1 ∧ s1.buf[3]? = some 2 ∧ s1.buf[4]? = some 3 := by
  have hlenb : (List.replicate 65541 (0 : Nat)).length = 65541 := List.length_replicate _ _
  have hci : clamp_index ⟨2, 21847, 255, 0, 0, List.replicate 65541 0⟩ 21846 = 21846 := by
    simp only [clamp_index]; decide
  have hp : (21846 * COLOR_COMPONENTS_PER_LED) % UINT16_MOD = 2 := by decide
  have hoff : (21846 * COLOR_COMPONENTS_PER_LED) % UINT16_MOD + 2
      < (led_strip_t.mk 2 21847 255 0 0 (List.replicate 65541 0)).buf.length := by
    rw [hp]; show 2 + 2 < (List.replicate 65541 (0 : Nat)).length
    rw [hlenb]; decide
  obtain ⟨b0, b1, b2, hfr⟩ := set_pixel_result_bytes
    ⟨2, 21847, 255, 0, 0, List.replicate 65541 0⟩ 21846 ⟨1, 2, 3⟩ hoff
  rw [hp] at b0 b1 b2 hfr
  have hz : ∀ j, j < 65541 → (List.replicate 65541 (0 : Nat))[j]? = some 0 := by
    intro j hj
    rw [List.getElem?_replicate, if_pos hj]
  refine ⟨set_pixel_result ⟨2, 21847, 255, 0, 0, List.replicate 65541 0⟩ 21846 ⟨1, 2, 3⟩,
    ?_, ?_, ?_, ?_, ?_, ?_, ?_⟩
  · simp only [led_strip_set, hci, set_pixel_some _ _ _ hoff, Option.some_bind]
  · rw [hfr 65538 (by decide) (by decide) (by decide)]; exact hz _ (by decide)
  · rw [hfr 65539 (by decide) (by decide) (by decide)]; exact hz _ (by decide)
  · rw [hfr 65540 (by decide) (by decide) (by decide)]; exact hz _ (by decide)
  · exact b0
  · exact b1
  · exact b2

/-! ## Teardown: properties -/

/-- C8, evaluated: when `rmt_disable` fails, `led_strip_free` returns that
failure after releasing the buffer, and calls neither `rmt_del_encoder` nor
`rmt_del_channel`. -/
theorem led_strip_free_skips_after_failure :
    led_strip_free (fun _ => -1) (fun _ => 0) (fun _ => 0) (some ⟨2, 1, 255, 7, 8, [0, 0, 0]⟩)
      = (-1, [TeardownCall.rmt_disable 7, TeardownCall.free [0, 0, 0]]) ∧
    TeardownCall.rmt_del_encoder 8 ∉
      (led_strip_free (fun _ => -1) (fun _ => 0) (fun _ => 0)
        (some ⟨2, 1, 255, 7, 8, [0, 0, 0]⟩)).2 ∧
    TeardownCall.rmt_del_channel 7 ∉
      (led_strip_free (fun _ => -1) (fun _ => 0) (fun _ => 0)
        (some ⟨2, 1, 255, 7, 8, [0, 0, 0]⟩)).2 := by
  decide

/-- C8, amended: for every non-null strip and all results of the three
collaborators, `led_strip_free` performs the teardown steps in the order
`rmt_disable`, `rmt_del_encoder`, `rmt_del_channel` and stops at the first
failure: the calls made are exactly `rmt_disable`, then the buffer release,
when `rmt_disable` fails; `rmt_disable`, `rmt_del_encoder`, then the buffer
release, when `rmt_del_encoder` is the first to fail; and all three in order,
then the buffer release, otherwise.  The pixel buffer is released exactly once,
as the last call, in every case, and the returned code is the first failure
encountered (`ESP_OK` if none failed). -/
theorem led_strip_free_stops_at_first_failure
    (rmt_disable rmt_del_encoder rmt_del_channel : Nat → esp_err_t) (s : led_strip_t) :
    (rmt_disable s.channel ≠ ESP_OK →
      led_strip_free rmt_disable rmt_del_encoder rmt_del_channel (some s)
        = (rmt_disable s.channel,
           [TeardownCall.rmt_disable s.channel, TeardownCall.free s.buf])) ∧
    (rmt_disable s.channel = ESP_OK → rmt_del_encoder s.encoder ≠ ESP_OK →
      led_strip_free rmt_disable rmt_del_encoder rmt_del_channel (some s)
        = (rmt_del_encoder s.encoder,
           [TeardownCall.rmt_disable s.channel, TeardownCall.rmt_del_encoder s.encoder,
            TeardownCall.free s.buf])) ∧
    (rmt_disable s.channel = ESP_OK → rmt_del_encoder s.encoder = ESP_OK →
      led_strip_free rmt_disable rmt_del_encoder rmt_del_channel (some s)
        = (rmt_del_channel s.channel,
           [TeardownCall.rmt_disable s.channel, TeardownCall.rmt_del_encoder s.encoder,
            TeardownCall.rmt_del_channel s.channel, TeardownCall.free s.buf])) ∧
    (led_strip_free rmt_disable rmt_del_encoder rmt_del_channel (some s)).2.head?
      = some (TeardownCall.rmt_disable s.channel) ∧
    (TeardownCall.rmt_del_encoder s.encoder ∈
        (led_strip_free rmt_disable rmt_del_encoder rmt_del_channel (some s)).2
      ↔ rmt_disable s.channel = ESP_OK) ∧
    (TeardownCall.rmt_del_channel s.channel ∈
        (led_strip_free rmt_disable rmt_del_encoder rmt_del_channel (some s)).2
      ↔ rmt_disable s.channel = ESP_OK ∧ rmt_del_encoder s.encoder = ESP_OK) ∧
    (led_strip_free rmt_disable rmt_del_encoder rmt_del_channel (some s)).2.getLast?
      = some (TeardownCall.free s.buf) ∧
    (led_strip_free rmt_disable rmt_del_encoder rmt_del_channel (some s)).2.count
        (TeardownCall.free s.buf) = 1 ∧
    (led_strip_free rmt_disable rmt_del_encoder rmt_del_channel (some s)).1
      = (if rmt_disable s.channel ≠ ESP_OK then rmt_disable s.channel
         else if rmt_del_encoder s.encoder ≠ ESP_OK then rmt_del_encoder s.encoder
         else rmt_del_channel s.channel) := by
  unfold led_strip_free
  by_cases hd : rmt_disable s.channel = ESP_OK
  · by_cases he : rmt_del_encoder s.encoder = ESP_OK
    · simp [hd, he]
    · simp [hd, he]
  · simp [hd]

theorem led_strip_free_stops_at_first_failure_witness :
    led_strip_free (fun _ => 0) (fun _ => -1) (fun _ => 0) (some ⟨2, 1, 255, 7, 8, [0, 0, 0]⟩)
        = (-1, [TeardownCall.rmt_disable 7, TeardownCall.rmt_del_encoder 8,
                TeardownCall.free [0, 0, 0]]) ∧
    led_strip_free (fun _ => 0) (fun _ => 0) (fun _ => 0) (some ⟨2, 1, 255, 7, 8, [0, 0, 0]⟩)
        = (0, [TeardownCall.rmt_disable 7, TeardownCall.rmt_del_encoder 8,
               TeardownCall.rmt_del_channel 7, TeardownCall.free [0, 0, 0]]) :=
  ⟨(led_strip_free_stops_at_first_failure (fun _ => 0) (fun _ => -1) (fun _ => 0)
      ⟨2, 1, 255, 7, 8, [0, 0, 0]⟩).2.1 (by decide) (by decide),
   (led_strip_free_stops_at_first_failure (fun _ => 0) (fun _ => 0) (fun _ => 0)
      ⟨2, 1, 255, 7, 8, [0, 0, 0]⟩).2.2.1 (by decide) (by decide)⟩

/-! ## Protocol encoder: one call -/

/-- C6: one call of `rmt_encode_led_strip`, for arbitrary sub-encoders whose
symbol counts are `size_t` values.  (i) Entered in Data, if the bytes encoder
reports "buffer full" the call returns with status exactly "buffer full",
without invoking the copy encoder, and returns the data symbols.  (ii) Entered
in Data, if the bytes encoder reports "complete" and not "buffer full" the copy
encoder is invoked in the same call, the returned count is the `size_t` sum of
data and reset symbols, and status and phase are those of (iii).  (iii) When
the copy encoder is invoked in the Reset phase, the returned status contains
"complete" exactly when the copy encoder reported it, and then the phase is
Data afterwards, otherwise Reset; the status contains "buffer full" exactly
when the copy encoder reported it. -/
theorem rmt_encode_led_strip_transitions {σ : Type}
    (be : σ → List Nat → Nat → σ × Nat × Nat) (ce : σ → σ × Nat × Nat)
    (env : σ) (data : List Nat) (n : Nat)
    (d : σ × Nat × Nat) (hd : d = be env data n)
    (hb : d.2.1 < SIZE_MOD) (hq0 : (ce d.1).2.1 < SIZE_MOD) (hq : (ce env).2.1 < SIZE_MOD)
    (out0 : EncodeOut σ) (h0 : out0 = rmt_encode_led_strip be ce 0 env data n)
    (out1 : EncodeOut σ) (h1 : out1 = rmt_encode_led_strip be ce 1 env data n) :
    (d.2.2 &&& RMT_ENCODING_MEM_FULL ≠ 0 →
      out0.ret_state = RMT_ENCODING_MEM_FULL ∧
      out0.ret_state &&& RMT_ENCODING_COMPLETE = 0 ∧
      out0.calls = [EncoderCall.bytes_encoder] ∧
      out0.encoded_symbols = d.2.1 ∧
      out0.env = d.1 ∧
      out0.state = (if d.2.2 &&& RMT_ENCODING_COMPLETE ≠ 0 then 1 else 0)) ∧
    (d.2.2 &&& RMT_ENCODING_COMPLETE ≠ 0 → d.2.2 &&& RMT_ENCODING_MEM_FULL = 0 →
      out0.calls = [EncoderCall.bytes_encoder, EncoderCall.copy_encoder] ∧
      out0.env = (ce d.1).1 ∧
      out0.encoded_symbols = (d.2.1 + (ce d.1).2.1) % SIZE_MOD ∧
      (d.2.1 + (ce d.1).2.1 < SIZE_MOD → out0.encoded_symbols = d.2.1 + (ce d.1).2.1) ∧
      (out0.ret_state &&& RMT_ENCODING_COMPLETE ≠ 0 ↔
        (ce d.1).2.2 &&& RMT_ENCODING_COMPLETE ≠ 0) ∧
      (out0.ret_state &&& RMT_ENCODING_MEM_FULL ≠ 0 ↔
        (ce d.1).2.2 &&& RMT_ENCODING_MEM_FULL ≠ 0) ∧
      out0.state = (if (ce d.1).2.2 &&& RMT_ENCODING_COMPLETE ≠ 0 then 0 else 1)) ∧
    (out1.calls = [EncoderCall.copy_encoder] ∧
      out1.env = (ce env).1 ∧
      out1.encoded_symbols = (ce env).2.1 ∧
      (out1.ret_state &&& RMT_ENCODING_COMPLETE ≠ 0 ↔
        (ce env).2.2 &&& RMT_ENCODING_COMPLETE ≠ 0) ∧
      (out1.ret_state &&& RMT_ENCODING_MEM_FULL ≠ 0 ↔
        (ce env).2.2 &&& RMT_ENCODING_MEM_FULL ≠ 0) ∧
      out1.state = (if (ce env).2.2 &&& RMT_ENCODING_COMPLETE ≠ 0 then 0 else 1)) := by
  subst hd h0 h1
  refine ⟨?_, ?_, ?_⟩
  · intro hfull
    simp only [rmt_encode_led_strip, if_pos hfull, if_true, Nat.zero_add, Nat.mod_eq_of_lt hb]
    and_intros <;> trivial
  · intro hcomp hnfull
    simp only [rmt_encode_led_strip, if_true, Nat.zero_add, Nat.mod_eq_of_lt hb, hnfull,
      ne_eq, not_true_eq_false, if_false, encode_reset_code, if_pos hcomp]
    refine ⟨rfl, trivial, trivial, fun h => by rw [Nat.mod_eq_of_lt h], ?_, ?_, ?_⟩
    · by_cases c1 : (ce (be env data n).1).2.2 &&& RMT_ENCODING_COMPLETE = 0 <;>
        by_cases c2 : (ce (be env data n).1).2.2 &&& RMT_ENCODING_MEM_FULL = 0 <;>
        simp [c1, c2] <;> decide
    · by_cases c1 : (ce (be env data n).1).2.2 &&& RMT_ENCODING_COMPLETE = 0 <;>
        by_cases c2 : (ce (be env data n).1).2.2 &&& RMT_ENCODING_MEM_FULL = 0 <;>
        simp [c1, c2] <;> decide
    · by_cases c1 : (ce (be env data n).1).2.2 &&& RMT_ENCODING_COMPLETE = 0 <;> simp [c1]
  · simp only [rmt_encode_led_strip, encode_reset_code, Nat.zero_add, Nat.mod_eq_of_lt hq]
    refine ⟨by simp, by simp, by simp, ?_, ?_, ?_⟩
    · by_cases c1 : (ce env).2.2 &&& RMT_ENCODING_COMPLETE = 0 <;>
        by_cases c2 : (ce env).2.2 &&& RMT_ENCODING_MEM_FULL = 0 <;>
        simp [c1, c2] <;> decide
    · by_cases c1 : (ce env).2.2 &&& RMT_ENCODING_COMPLETE = 0 <;>
        by_cases c2 : (ce env).2.2 &&& RMT_ENCODING_MEM_FULL = 0 <;>
        simp [c1, c2] <;> decide
    · by_cases c1 : (ce env).2.2 &&& RMT_ENCODING_COMPLETE = 0 <;> simp [c1]

theorem rmt_encode_led_strip_transitions_witness :
    ((bytes_encode ⟨5, 0, 0⟩ [1] 1).2.2 &&& RMT_ENCODING_MEM_FULL ≠ 0 ∧
      (rmt_encode_led_strip bytes_encode copy_encode 0 ⟨5, 0, 0⟩ [1] 1).ret_state
        = RMT_ENCODING_MEM_FULL ∧
      (rmt_encode_led_strip bytes_encode copy_encode 0 ⟨5, 0, 0⟩ [1] 1).calls
        = [EncoderCall.bytes_encoder] ∧
      (rmt_encode_led_strip bytes_encode copy_encode 0 ⟨5, 0, 0⟩ [1] 1).encoded_symbols = 5) ∧
    ((bytes_encode ⟨9, 0, 0⟩ [1] 1).2.2 &&& RMT_ENCODING_COMPLETE ≠ 0 ∧
      (bytes_encode ⟨9, 0, 0⟩ [1] 1).2.2 &&& RMT_ENCODING_MEM_FULL = 0 ∧
      (rmt_encode_led_strip bytes_encode copy_encode 0 ⟨9, 0, 0⟩ [1] 1).calls
        = [EncoderCall.bytes_encoder, EncoderCall.copy_encoder] ∧
      (rmt_encode_led_strip bytes_encode copy_encode 0 ⟨9, 0, 0⟩ [1] 1).encoded_symbols
        = (8 + 1) % SIZE_MOD) :=
  have hA := rmt_encode_led_strip_transitions bytes_encode copy_encode ⟨5, 0, 0⟩ [1] 1
    _ rfl (by decide) (by decide) (by decide) _ rfl _ rfl
  have hB := rmt_encode_led_strip_transitions bytes_encode copy_encode ⟨9, 0, 0⟩ [1] 1
    _ rfl (by decide) (by decide) (by decide) _ rfl _ rfl
  have hA1 := hA.1 (by decide)
  have hB1 := hB.2.1 (by decide) (by decide)
  ⟨⟨by decide, hA1.1, hA1.2.2.1, hA1.2.2.2.1⟩, ⟨by decide, by decide, hB1.1, hB1.2.2.1⟩⟩


/-! ## Protocol encoder: a whole flush -/

theorem bytes_encode_truncated (w lb ls : Nat) (data : List Nat) (n : Nat)
    (h : w < n * 8 - lb) :
    bytes_encode ⟨w, lb, ls⟩ data n = (⟨0, lb + w, ls⟩, w, 2) := by
  have h2 : ¬ (w > n * 8 - lb) := by omega
  simp [bytes_encode, h, h2, RMT_ENCODING_MEM_FULL]

theorem bytes_encode_exact (w lb ls : Nat) (data : List Nat) (n : Nat)
    (h : w = n * 8 - lb) :
    bytes_encode ⟨w, lb, ls⟩ data n = (⟨0, 0, ls⟩, w, 3) := by
  have h1 : ¬ (w < n * 8 - lb) := by omega
  have h2 : ¬ (w > n * 8 - lb) := by omega
  simp [bytes_encode, h1, h2, RMT_ENCODING_MEM_FULL, RMT_ENCODING_COMPLETE]
  omega

theorem bytes_encode_room (w lb ls : Nat) (data : List Nat) (n : Nat)
    (h : n * 8 - lb < w) :
    bytes_encode ⟨w, lb, ls⟩ data n = (⟨w - (n * 8 - lb), 0, ls⟩, n * 8 - lb, 1) := by
  have h1 : ¬ (w < n * 8 - lb) := by omega
  simp [bytes_encode, h1, h, RMT_ENCODING_COMPLETE]

theorem copy_encode_none (lb : Nat) :
    copy_encode ⟨0, lb, 0⟩ = (⟨0, lb, 0⟩, 0, 2) := by
  simp [copy_encode, RMT_ENCODING_MEM_FULL]

theorem copy_encode_last (lb : Nat) :
    copy_encode ⟨1, lb, 0⟩ = (⟨0, lb, 0⟩, 1, 3) := by
  simp [copy_encode, RMT_ENCODING_MEM_FULL, RMT_ENCODING_COMPLETE]

theorem copy_encode_room (w lb : Nat) (h : 1 < w) :
    copy_encode ⟨w, lb, 0⟩ = (⟨w - 1, lb, 0⟩, 1, 1) := by
  have h1 : ¬ (w < 1) := by omega
  simp [copy_encode, h1, h, RMT_ENCODING_COMPLETE]

theorem encode_step (data : List Nat) (n e w : Nat) (st : Int) (env : rmt_env)
    (hinv : flush_inv n e st env) (hw : w < SIZE_MOD)
    (out : EncodeOut rmt_env)
    (hout : out = rmt_encode_led_strip bytes_encode copy_encode st
      { env with mem_free := w } data n) :
    (out.ret_state &&& RMT_ENCODING_COMPLETE ≠ 0 →
      e + out.encoded_symbols = n * 8 + 1 ∧ out.state = 0 ∧ out.env.last_bit = 0 ∧
      out.env.last_symbol = 0 ∧ out.encoded_symbols ≤ w) ∧
    (out.ret_state &&& RMT_ENCODING_COMPLETE = 0 →
      flush_inv n (e + out.encoded_symbols) out.state out.env ∧
      (0 < w → 0 < out.encoded_symbols)) := by
  obtain ⟨mf, lb, ls⟩ := env
  obtain ⟨hls, h | h⟩ := hinv
  · obtain ⟨hst, hlb, hle⟩ := h
    simp only at hls hlb
    subst hout hst hls hlb
    have hmod : w % SIZE_MOD = w := Nat.mod_eq_of_lt hw
    rcases Nat.lt_trichotomy w (n * 8 - lb) with htr | heq | hgt
    · simp [rmt_encode_led_strip, bytes_encode_truncated _ _ _ _ _ htr, RMT_ENCODING_COMPLETE,
        RMT_ENCODING_MEM_FULL, hmod, flush_inv]
      omega
    · simp [rmt_encode_led_strip, bytes_encode_exact _ _ _ _ _ heq, RMT_ENCODING_COMPLETE,
        RMT_ENCODING_MEM_FULL, hmod, flush_inv]
      omega
    · have hmod2 : (n * 8 - lb) % SIZE_MOD = n * 8 - lb := Nat.mod_eq_of_lt (by omega)
      have hmod3 : (n * 8 - lb + 1) % SIZE_MOD = n * 8 - lb + 1 := Nat.mod_eq_of_lt (by omega)
      rcases Nat.lt_or_ge 1 (w - (n * 8 - lb)) with h1 | h1
      · simp [rmt_encode_led_strip, bytes_encode_room _ _ _ _ _ hgt, RMT_ENCODING_COMPLETE,
          RMT_ENCODING_MEM_FULL, hmod2, hmod3, flush_inv, encode_reset_code,
          copy_encode_room _ _ h1]
        omega
      · have h2 : w - (n * 8 - lb) = 1 := by omega
        simp [rmt_encode_led_strip, bytes_encode_room _ _ _ _ _ hgt, RMT_ENCODING_COMPLETE,
          RMT_ENCODING_MEM_FULL, hmod2, hmod3, flush_inv, encode_reset_code, h2,
          copy_encode_last]
        omega
  · obtain ⟨hst, hlb, he⟩ := h
    simp only at hls hlb
    subst hout hst hls hlb
    have h1m : 1 % SIZE_MOD = 1 := by decide
    rcases Nat.lt_trichotomy w 1 with h0 | h1 | h2
    · have hw0 : w = 0 := by omega
      subst hw0
      simp [rmt_encode_led_strip, RMT_ENCODING_COMPLETE,
        RMT_ENCODING_MEM_FULL, flush_inv, encode_reset_code, copy_encode_none, he]
    · subst h1
      simp [rmt_encode_led_strip, RMT_ENCODING_COMPLETE,
        RMT_ENCODING_MEM_FULL, flush_inv, encode_reset_code, copy_encode_last, he, h1m]
    · simp [rmt_encode_led_strip, RMT_ENCODING_COMPLETE,
        RMT_ENCODING_MEM_FULL, flush_inv, encode_reset_code, copy_encode_room _ _ h2, he, h1m]
      omega

theorem flush_inv_le (n e : Nat) (st : Int) (env : rmt_env) (h : flush_inv n e st env) :
    e ≤ n * 8 := by
  obtain ⟨_, h | h⟩ := h
  · exact h.2.2
  · exact Nat.le_of_eq h.2.2

theorem flush_inv_fresh (n : Nat) : flush_inv n 0 0 rmt_env.fresh :=
  ⟨rfl, Or.inl ⟨rfl, rfl, Nat.zero_le _⟩⟩

theorem flush_run_ncalls_pos (data : List Nat) (n : Nat) :
    ∀ (ws : List Nat) (st : Int) (env : rmt_env) (r : FlushRun),
      flush_run data n ws st env = some r → 1 ≤ r.ncalls := by
  intro ws
  induction ws with
  | nil => intro st env r h; simp [flush_run] at h
  | cons w ws ih =>
    intro st env r h
    simp only [flush_run] at h
    split at h
    · cases h; exact Nat.le_refl 1
    · obtain ⟨r1, _, h2⟩ := Option.map_eq_some'.mp h
      subst h2
      exact Nat.le_add_left 1 _

theorem flush_run_total (data : List Nat) (n : Nat) :
    ∀ (ws : List Nat) (e : Nat) (st : Int) (env : rmt_env),
      flush_inv n e st env → (∀ w ∈ ws, w < SIZE_MOD) →
      ∀ r, flush_run data n ws st env = some r →
        e + r.symbols = n * 8 + 1 ∧ r.state = 0 ∧ r.env.last_bit = 0 ∧
          r.env.last_symbol = 0 := by
  intro ws
  induction ws with
  | nil => intro e st env _ _ r h; simp [flush_run] at h
  | cons w ws ih =>
    intro e st env hinv hws r h
    have hstep := encode_step data n e w st env hinv (hws w (List.mem_cons_self _ _)) _ rfl
    simp only [flush_run] at h
    split at h
    · next hc =>
      cases h
      obtain ⟨a, b, c, d, _⟩ := hstep.1 hc
      exact ⟨a, b, c, d⟩
    · next hc =>
      obtain ⟨r1, h1, h2⟩ := Option.map_eq_some'.mp h
      subst h2
      have hc0 := not_not.mp hc
      obtain ⟨hinv1, _⟩ := hstep.2 hc0
      obtain ⟨a, b, c, d⟩ := ih _ _ _ hinv1 (fun x hx => hws x (List.mem_cons_of_mem _ hx)) r1 h1
      exact ⟨by simp only; omega, b, c, d⟩

theorem flush_run_completes (data : List Nat) (n : Nat) :
    ∀ (ws : List Nat) (e : Nat) (st : Int) (env : rmt_env),
      flush_inv n e st env → (∀ w ∈ ws, w < SIZE_MOD) → (∀ w ∈ ws, 0 < w) →
      n * 8 + 1 - e ≤ ws.length →
      ∃ r, flush_run data n ws st env = some r := by
  intro ws
  induction ws with
  | nil =>
    intro e st env hinv _ _ hlen
    have := flush_inv_le n e st env hinv
    simp at hlen
    omega
  | cons w ws ih =>
    intro e st env hinv hws hpos hlen
    have hstep := encode_step data n e w st env hinv (hws w (List.mem_cons_self _ _)) _ rfl
    simp only [flush_run]
    split
    · exact ⟨_, rfl⟩
    · next hc =>
      have hc0 := not_not.mp hc
      obtain ⟨hinv1, hprog⟩ := hstep.2 hc0
      have hp := hprog (hpos w (List.mem_cons_self _ _))
      obtain ⟨r1, h1⟩ := ih _ _ _ hinv1 (fun x hx => hws x (List.mem_cons_of_mem _ hx))
        (fun x hx => hpos x (List.mem_cons_of_mem _ hx))
        (by simp only [List.length_cons] at hlen; omega)
      exact ⟨_, by rw [h1]; rfl⟩

/-- C7: with the sub-encoders of the interface contract, for every buffer of `n`
bytes and every list of host window sizes (each a `size_t`), a run of
`rmt_encode_led_strip` calls from the fresh Data-phase session up to the first
call that reports "complete" emits `8 * n + 1` symbols in total, leaves the
session in the Data phase with both sub-encoders at their start, and takes at
least two calls when the first window holds fewer than `8 * n + 1` symbols;
with non-empty windows such a run exists within `8 * n + 1` calls. -/
theorem flush_emits_all_symbols (data : List Nat) (n : Nat) (ws : List Nat)
    (hws : ∀ w ∈ ws, w < SIZE_MOD) :
    (∀ r, flush_run data n ws 0 rmt_env.fresh = some r →
      r.symbols = 8 * n + 1 ∧ r.state = 0 ∧ r.env.last_bit = 0 ∧ r.env.last_symbol = 0 ∧
      (∀ w, ws.head? = some w → w < 8 * n + 1 → 2 ≤ r.ncalls)) ∧
    ((∀ w ∈ ws, 0 < w) → 8 * n + 1 ≤ ws.length →
      ∃ r, flush_run data n ws 0 rmt_env.fresh = some r) := by
  refine ⟨?_, ?_⟩
  · intro r hr
    obtain ⟨a, b, c, d⟩ := flush_run_total data n ws 0 0 rmt_env.fresh (flush_inv_fresh n) hws r hr
    refine ⟨by omega, b, c, d, ?_⟩
    intro w hhead hsmall
    cases ws with
    | nil => simp at hhead
    | cons w0 ws0 =>
      simp only [List.head?_cons, Option.some.injEq] at hhead
      subst hhead
      have hstep := encode_step data n 0 w0 0 rmt_env.fresh (flush_inv_fresh n)
        (hws w0 (List.mem_cons_self _ _)) _ rfl
      simp only [flush_run] at hr
      split at hr
      · next hc =>
        obtain ⟨h1, _, _, _, h5⟩ := hstep.1 hc
        omega
      · obtain ⟨r1, h1, h2⟩ := Option.map_eq_some'.mp hr
        subst h2
        have := flush_run_ncalls_pos data n _ _ _ r1 h1
        simp only
        omega
  · intro hpos hlen
    exact flush_run_completes data n ws 0 0 rmt_env.fresh (flush_inv_fresh n) hws hpos
      (by omega)

theorem flush_emits_all_symbols_witness :
    (∀ r, flush_run [1, 2, 3] 3 [10, 10, 10] 0 rmt_env.fresh = some r →
      r.symbols = 8 * 3 + 1 ∧ r.state = 0 ∧ r.env.last_bit = 0 ∧ r.env.last_symbol = 0 ∧
      (∀ w, [10, 10, 10].head? = some w → w < 8 * 3 + 1 → 2 ≤ r.ncalls)) ∧
    flush_run [1, 2, 3] 3 [10, 10, 10] 0 rmt_env.fresh
      = some ⟨25, 3, 0, ⟨5, 0, 0⟩⟩ :=
  ⟨(flush_emits_all_symbols [1, 2, 3] 3 [10, 10, 10] (by decide)).1, by decide⟩
end LedStrip

open LedStrip
